import Mathlib

/-!
Verification development for the pharma feedback backend (`src/app.py`).

Python strings are modelled as `String` (or `List Char` where character-level
reasoning is needed), Python scalar/JSON values crossing the HTTP and
spreadsheet boundaries as `PyVal`, and every external effect (spreadsheet
resolution, spreadsheet append, AI HTTP call, `json.loads`) as an explicit
outcome parameter, so each Flask handler becomes a pure function of its
inputs and of the outcomes of its external calls.
-/

/-- Python values as they appear in request bodies, spreadsheet cells,
appended rows and `json.loads` results: strings, ints, `None`, and JSON
objects (Python dicts, modelled as association lists without duplicate
keys).  Nested containers are not needed by any claim. -/
inductive PyVal where
  | pstr : String → PyVal
  | pint : Int → PyVal
  | pnone : PyVal
  | pobj : List (String × PyVal) → PyVal

/-- Python `str()` on the scalar values that actually flow through the
claimed code paths (`str(user['Password'])` on a sheet cell, f-string
interpolation of request fields).  Sheet cells and request fields are
scalars; the rendering of a dict (never a cell value) is abbreviated and
is not relied on by any theorem. -/
def pyStr : PyVal → String
  | .pstr s => s
  | .pint n => toString n
  | .pnone => "None"
  | .pobj _ => "\x7bdict\x7d"

/-- Python `==` between a stored cell value and a submitted string
(`user['Username'] == data['username']`, line 125): equal only when the
stored value is a string equal to it; any non-string value compares
unequal to a string in Python. -/
def pyEqStr (v : PyVal) (s : String) : Bool :=
  match v with
  | .pstr t => t == s
  | _ => false

/-- Lookup in a Python dict modelled as an association list:
`d[k]` raises `KeyError` exactly when this returns `none`;
`d.get(k)` returns `None` in that case. -/
def dataGet (d : List (String × PyVal)) (k : String) : Option PyVal :=
  match d.find? (fun kv => kv.1 == k) with
  | some kv => some kv.2
  | none => none

/-- Python `d.get(k)` (default `None`), as used on line 111. -/
def pyGetD (d : List (String × PyVal)) (k : String) : PyVal :=
  (dataGet d k).getD .pnone

/-- Python `d.get(k, default)`, as used on line 59. -/
def dget (d : List (String × PyVal)) (k : String) (dflt : PyVal) : PyVal :=
  (dataGet d k).getD dflt

/-- A JSON response from a handler: the `status` field, the `message`
field and the HTTP status code (Flask default 200 when unannotated). -/
structure JsonResp where
  status : String
  message : String
  code : Nat
deriving DecidableEq, Repr

/-- The 500 error envelope `jsonify({"status": "error", "message": str(e)}), 500`. -/
def err500 (m : String) : JsonResp := ⟨"error", m, 500⟩

/-- Outcome of the `requests.post` / `raise_for_status` / `response.json()`
/ `['candidates'][0]['content']['parts'][0]['text']` chain (lines 53-56
and 72-75): either the extracted model reply text, or an exception whose
`str(e)` is the carried message (any transport, HTTP-status or
shape failure raises). -/
inductive NetOutcome where
  | ok : String → NetOutcome
  | err : String → NetOutcome

/-- The backtick character (Markdown code-fence marker). -/
def bt : Char := Char.ofNat 96

/-- The literal string replaced first on line 57 (3 backticks then json). -/
def fenceJsonPat : List Char := [bt, bt, bt, 'j', 's', 'o', 'n']

/-- The literal string replaced second on line 57 (3 backticks). -/
def fencePat : List Char := [bt, bt, bt]

/-- Python whitespace as recognised by `str.strip()` (ASCII range:
space, tab, newline, carriage return, vertical tab, form feed). -/
def isPyWS (c : Char) : Bool :=
  (c == ' ') || (c == Char.ofNat 9) || (c == Char.ofNat 10) ||
    (c == Char.ofNat 13) || (c == Char.ofNat 11) || (c == Char.ofNat 12)

/-- Python `s.replace(pat, '')`: scan left to right; at each position, if
the pattern matches, remove it and continue after the removed occurrence,
otherwise keep the character and advance by one.  (The `pat ≠ []` guard is
irrelevant to the two concrete nonempty patterns used and only serves
termination.) -/
def removeAll (pat : List Char) (s : List Char) : List Char :=
  match s with
  | [] => []
  | c :: rest =>
    if h : pat ≠ [] ∧ pat <+: (c :: rest) then
      removeAll pat (List.drop pat.length (c :: rest))
    else
      c :: removeAll pat rest
termination_by s.length
decreasing_by
  · have hlen := h.2.length_le
    have h1 : 1 ≤ pat.length := by
      cases pat with
      | nil => exact absurd rfl h.1
      | cons a l => simp
    simp only [List.length_drop, List.length_cons]
    omega
  · simp

/-- Removal of trailing Python whitespace (the right half of `str.strip()`). -/
def stripEnd (s : List Char) : List Char := (s.reverse.dropWhile isPyWS).reverse

/-- Python `str.strip()` (no argument): drop leading and trailing whitespace. -/
def pyStrip (s : List Char) : List Char := stripEnd (s.dropWhile isPyWS)

/-- `str.strip()` lifted to `String` (used for `paragraph.strip()`, line 157). -/
def pyStripStr (s : String) : String := String.mk (pyStrip s.data)

/-- Line 57: `model_response_text.replace('```json', '').replace('```', '').strip()`. -/
def clean (s : List Char) : List Char :=
  pyStrip (removeAll fencePat (removeAll fenceJsonPat s))

/-- `clean` lifted to `String`. -/
def cleanS (s : String) : String := String.mk (clean s.data)

/-- A reply text surrounded by Markdown code fences. -/
def fenceWrap (t : List Char) : List Char := fenceJsonPat ++ t ++ fencePat

/-- The pattern `pat` occurs as a contiguous substring of `s` (Python
`pat in s`); `s.replace(pat, '')` is the identity exactly when this
fails. -/
def Occurs (pat s : List Char) : Prop := ∃ x y, s = x ++ pat ++ y

/-- Length of the run of backticks at the front of a string (used to
reason about what `replace('```', '')` can leave behind). -/
def leadTicks : List Char → Nat
  | [] => 0
  | c :: r => if c = bt then leadTicks r + 1 else 0

/-- Python truthiness of `not GEMINI_API_KEY` (line 46 and line 66): the
environment variable is absent (`None`) or the empty string. -/
def keyMissing : Option String → Bool
  | none => true
  | some k => k == ""

/-- The transient annotation result of `analyze_with_gemini` (lines 44-62):
`category` and `sentiment` are whatever values the parsed JSON object
supplied (hence `PyVal`), `error` is always a string. -/
structure AnalysisResult where
  category : PyVal
  sentiment : PyVal
  error : String

/-- The fixed classification prompt (line 49). -/
def classifyPrompt (text : String) : String :=
  "Analyze the following customer feedback. Provide a JSON object with two keys: \"category\" and \"sentiment\". The \"category\" must be one of the following: [Packaging, Formula, Color, Smell, Efficacy, Side Effect, Price, Documentation, Other]. The \"sentiment\" must be a number between -1.0 (very negative) and 1.0 (very positive). Feedback to analyze: \"" ++ text ++ "\""

/-- Python `AttributeError` message raised when `json.loads` returned a
non-dict value and `.get` is called on it (line 59); its exact text is
not relied on by any theorem. -/
def attrErrMsg (v : PyVal) : String :=
  match v with
  | .pstr _ => "str object has no attribute get"
  | .pint _ => "int object has no attribute get"
  | .pnone => "NoneType object has no attribute get"
  | .pobj _ => ""

/-- `analyze_with_gemini` (lines 44-62).  `key` is `GEMINI_API_KEY`,
`net` the outcome of the HTTP call and reply-text extraction, `loads`
the behaviour of `json.loads` on the cleaned reply (raising modelled as
`Except.error` carrying `str(e)`).  Every failure inside the `try` block
is caught and degraded to an `AI_Error` result (line 60-62). -/
def analyze_with_gemini (key : Option String) (net : NetOutcome)
    (loads : String → Except String PyVal) (text : String) : AnalysisResult :=
  if keyMissing key then
    ⟨.pstr ("Config Error"), .pint 0, "GEMINI_API_KEY not set."⟩
  else
    let _prompt := classifyPrompt text
    match net with
    | .err m => ⟨.pstr ("AI_Error"), .pint 0, m⟩
    | .ok reply =>
      match loads (cleanS reply) with
      | .error m => ⟨.pstr ("AI_Error"), .pint 0, m⟩
      | .ok (.pobj o) =>
        ⟨dget o ("category") (.pstr ("Parse Error")),
          dget o ("sentiment") (.pint 0), ""⟩
      | .ok v => ⟨.pstr ("AI_Error"), .pint 0, attrErrMsg v⟩

/-- `generate_text_with_gemini` (lines 64-78): sentinel strings, never a fault. -/
def generate_text_with_gemini (key : Option String) (net : NetOutcome)
    (_prompt : String) : String :=
  if keyMissing key then "Error: GEMINI_API_KEY not set."
  else
    match net with
    | .ok reply => reply
    | .err _ => "Error: Could not generate report text from AI."

/-- Python `str(e)` for a `KeyError` on a missing request field (line 109);
the exact message text is not relied on by any theorem. -/
def keyErrorMsg (k : String) : String := "KeyError: " ++ k

/-- `/submit-feedback` (lines 104-116).  `sheet` is the outcome of
`get_sheet("Feedback")`, `data` the parsed request body, `timestamp`
the value of `datetime.utcnow().isoformat() + "Z"`, `appendRes` the
outcome of `feedback_sheet.append_row(new_row)`.  Returns the JSON
response and the single row appended (`none` when no append happened).
Note line 109 subscripts `data['feedbackText']` and
`data['suggestionText']` (KeyError when missing), while line 111 uses
`data.get(...)` for all five fields. -/
def submit_feedback (sheet : Except String Unit)
    (data : List (String × PyVal)) (key : Option String) (net : NetOutcome)
    (loads : String → Except String PyVal) (timestamp : String)
    (appendRes : Except String Unit) : JsonResp × Option (List PyVal) :=
  match sheet with
  | .error m => (err500 m, none)
  | .ok _ =>
    match dataGet data ("feedbackText") with
    | none => (err500 (keyErrorMsg ("feedbackText")), none)
    | some ft =>
      match dataGet data ("suggestionText") with
      | none => (err500 (keyErrorMsg ("suggestionText")), none)
      | some st =>
        let ai := analyze_with_gemini key net loads
          ("Feedback: " ++ pyStr ft ++ ". Suggestion: " ++ pyStr st)
        let new_row : List PyVal :=
          [.pstr timestamp, pyGetD data ("productName"),
            pyGetD data ("feedbackText"), pyGetD data ("suggestionText"),
            pyGetD data ("clientName"), pyGetD data ("clientEmail"),
            ai.category, ai.sentiment, .pstr ai.error]
        match appendRes with
        | .error m => (err500 m, none)
        | .ok _ => (⟨"success", "Feedback submitted.", 200⟩, some new_row)

/-- One record of `admin_sheet.get_all_records()` (line 123): the cell
under the `Username` header and the cell under the `Password` header. -/
structure AdminRec where
  username : PyVal
  password : PyVal

/-- `/admin-login` (lines 118-130).  `sheet` is the combined outcome of
`get_sheet("AdminUsers")` and `get_all_records()`; `username`/`password`
are the submitted `data['username']`/`data['password']` strings.  The
for-loop with early return (lines 124-126) is the first record matching
`user['Username'] == data['username'] and str(user['Password']) == data['password']`. -/
def admin_login (sheet : Except String (List AdminRec))
    (username password : String) : JsonResp :=
  match sheet with
  | .error m => err500 m
  | .ok users =>
    match users.find?
        (fun u => pyEqStr u.username username && (pyStr u.password == password)) with
    | some _ => ⟨"success", "Login successful.", 200⟩
    | none => ⟨"error", "Invalid credentials.", 401⟩

/-- Response of `/get-products`: the products list or an error envelope. -/
inductive ProductsResp where
  | ok : List String → ProductsResp
  | err : Nat → String → ProductsResp
deriving DecidableEq, Repr

/-- `/get-products` (lines 94-102).  `sheet` is the combined outcome of
`get_sheet("Products")` and `col_values(1)` (the first column, top to
bottom); line 98 slices `[1:]`. -/
def get_products (sheet : Except String (List String)) : ProductsResp :=
  match sheet with
  | .error m => .err 500 m
  | .ok col => .ok (col.drop 1)

/-- Python `str()` of one `get_all_records()` dict row, used only to build
the report prompt (line 151); its exact punctuation is not relied on by
any theorem. -/
def strOfRecord (r : List (String × PyVal)) : String :=
  "\x7b" ++ String.intercalate (", ") (r.map (fun kv => kv.1 ++ ": " ++ pyStr kv.2)) ++ "\x7d"

/-- The fixed report prompt (line 152). -/
def reportPrompt (lang summary : String) : String :=
  "You are a senior business analyst for a pharmaceutical company. Your task is to write a concise, professional executive summary report based on the following raw customer feedback data. IMPORTANT: The entire report must be written in " ++ lang ++ ". The report should include these sections: 1. **Overall Summary:** A brief, high-level overview of the findings. 2. **Key Positive Themes:** What are customers consistently happy about? 3. **Key Areas for Improvement:** What are the most common complaints? Group similar issues. 4. **Actionable Recommendations:** Suggest 2-3 specific, concrete actions the company should take. Do not just list the data. Synthesize it into an insightful report in " ++ lang ++ ". --- RAW DATA --- " ++ summary ++ " --- END OF RAW DATA --- "

/-- The for-loop of lines 156-158: keep each line whose `.strip()` is
truthy (non-empty), in order, as one paragraph. -/
def buildParas : List String → List String
  | [] => []
  | l :: ls => if pyStripStr l ≠ "" then l :: buildParas ls else buildParas ls

/-- Outcome of `/generate-report`: either a document download (heading,
paragraph texts in order, suggested filename) or a JSON error envelope
(code, status, message). -/
inductive ReportResp where
  | file : String → List String → String → ReportResp
  | err : Nat → String → String → ReportResp
deriving DecidableEq, Repr

/-- `/generate-report` (lines 142-165).  `sheet` is the combined outcome
of `get_sheet("Feedback")` and `get_all_records()`; `langArg` is the
optional `lang` query parameter; `key`/`net` feed the
`generate_text_with_gemini` call.  Any fault is caught by line 163 and
converted to a 500 with the fixed message. -/
def generate_report (sheet : Except String (List (List (String × PyVal))))
    (langArg : Option String) (key : Option String) (net : NetOutcome) :
    ReportResp :=
  match sheet with
  | .error _ => .err 500 ("error") ("Could not generate report.")
  | .ok all_feedback =>
    let lang := langArg.getD ("english")
    if all_feedback.isEmpty then
      .err 404 ("error") ("No feedback data to generate a report.")
    else
      let data_summary := String.intercalate ("\n") (all_feedback.map strOfRecord)
      let report_prompt := reportPrompt lang data_summary
      let generated := generate_text_with_gemini key net report_prompt
      .file ("Customer Feedback Report")
        (buildParas (generated.splitOn ("\n")))
        ("Pharma_Feedback_Report_" ++ lang ++ ".docx")

/-! ## Claim theorems: configuration and parse error paths of the annotator -/

/-- C3: for every input text, classification with an empty or missing API
key returns sentiment 0, category "Config Error" and a non-empty error
reason, and the result does not depend on the network outcome (no call
is ever attempted: the guard on line 46 returns first). -/
theorem analyze_config_error_no_network (key : Option String)
    (net : NetOutcome) (loads : String → Except String PyVal) (text : String)
    (h : key = none ∨ key = some "") :
    analyze_with_gemini key net loads text
        = ⟨.pstr ("Config Error"), .pint 0, "GEMINI_API_KEY not set."⟩
      ∧ ("GEMINI_API_KEY not set." : String) ≠ ""
      ∧ (∀ (net2 : NetOutcome) (loads2 : String → Except String PyVal),
          analyze_with_gemini key net2 loads2 text
            = analyze_with_gemini key net loads text) := by
  have hk : keyMissing key = true := by
    rcases h with h | h <;> simp [keyMissing, h]
  refine ⟨by simp [analyze_with_gemini, hk], by decide, ?_⟩
  intro net2 loads2
  simp [analyze_with_gemini, hk]

/-- Witness for C3 at a concrete input (empty key). -/
theorem analyze_config_error_no_network_witness :
    ((some "" : Option String) = none ∨ (some "" : Option String) = some "")
      ∧ analyze_with_gemini (some "") (.err ("down")) (fun _ => .error ("x")) ("t")
          = ⟨.pstr ("Config Error"), .pint 0, "GEMINI_API_KEY not set."⟩ :=
  ⟨Or.inr rfl,
    (analyze_config_error_no_network (some "") (.err ("down"))
      (fun _ => .error ("x")) ("t") (Or.inr rfl)).1⟩

/-- C4: the two parse-failure paths of `analyze_with_gemini` (lines 58-62):
if `json.loads` on the cleaned reply raises, the result is the `AI_Error`
sentinel carrying the exception message (non-empty whenever the message
is); if it returns an object missing the "category" or "sentiment" key,
the missing key defaults to "Parse Error" / 0 and the error field is "". -/
theorem analyze_parse_failure_paths (k reply text : String)
    (loads : String → Except String PyVal) (hk : k ≠ "") :
    (∀ m, loads (cleanS reply) = .error m →
        analyze_with_gemini (some k) (.ok reply) loads text
            = ⟨.pstr ("AI_Error"), .pint 0, m⟩
          ∧ (m ≠ "" →
              (analyze_with_gemini (some k) (.ok reply) loads text).error ≠ ""))
  ∧ (∀ o, loads (cleanS reply) = .ok (.pobj o) →
        analyze_with_gemini (some k) (.ok reply) loads text
            = ⟨dget o ("category") (.pstr ("Parse Error")),
                dget o ("sentiment") (.pint 0), ""⟩
          ∧ (dataGet o ("category") = none →
              (analyze_with_gemini (some k) (.ok reply) loads text).category
                = .pstr ("Parse Error"))
          ∧ (dataGet o ("sentiment") = none →
              (analyze_with_gemini (some k) (.ok reply) loads text).sentiment
                = .pint 0)
          ∧ (analyze_with_gemini (some k) (.ok reply) loads text).error = "") := by
  have hkm : keyMissing (some k) = false := by simp [keyMissing, hk]
  constructor
  · intro m hm
    constructor
    · simp [analyze_with_gemini, hkm, hm]
    · intro hne
      simp [analyze_with_gemini, hkm, hm, hne]
  · intro o ho
    refine ⟨by simp [analyze_with_gemini, hkm, ho], ?_, ?_, ?_⟩
    · intro hcat
      simp [analyze_with_gemini, hkm, ho, dget, hcat]
    · intro hsent
      simp [analyze_with_gemini, hkm, ho, dget, hsent]
    · simp [analyze_with_gemini, hkm, ho]

/-- Witness for C4: a loads that raises, and a loads returning an object
with neither key, at a concrete reply. -/
theorem analyze_parse_failure_paths_witness :
    (analyze_with_gemini (some "k") (.ok ("x")) (fun _ => .error ("boom")) ("t")
        = ⟨.pstr ("AI_Error"), .pint 0, "boom"⟩)
      ∧ (analyze_with_gemini (some "k") (.ok ("x")) (fun _ => .ok (.pobj [])) ("t")
        = ⟨.pstr ("Parse Error"), .pint 0, ""⟩) := by
  constructor
  · exact ((analyze_parse_failure_paths "k" "x" "t" (fun _ => .error ("boom"))
      (by decide)).1 "boom" rfl).1
  · exact ((analyze_parse_failure_paths "k" "x" "t" (fun _ => .ok (.pobj []))
      (by decide)).2 [] rfl).1

/-! ## Claim theorems: products listing and report generation -/

/-- C6: `/get-products` returns exactly the first column with its first
entry removed, in order (`ps[i] = col[i+1]`), and a column with zero or
one entries yields the empty list. -/
theorem get_products_drops_header (col : List String) :
    get_products (.ok col) = .ok (col.drop 1)
      ∧ (col.drop 1).length = col.length - 1
      ∧ (∀ i : Nat, (col.drop 1)[i]? = col[i + 1]?)
      ∧ (col.length ≤ 1 → get_products (.ok col) = .ok []) := by
  refine ⟨rfl, by simp, ?_, ?_⟩
  · intro i
    rw [List.getElem?_drop, Nat.add_comm]
  · intro h
    have hd : col.drop 1 = [] := List.drop_eq_nil_iff.mpr h
    simp [get_products, hd]

/-- Witness for C6 at a header-only table. -/
theorem get_products_drops_header_witness :
    ((["Products"] : List String).length ≤ 1)
      ∧ get_products (.ok (["Products"])) = .ok [] :=
  ⟨by decide, (get_products_drops_header (["Products"])).2.2.2 (by decide)⟩

/-- C8: report generation over an empty feedback table is a 404 with the
"no data" message, for every language argument, API key and network
outcome — in particular the result does not depend on the AI call at all
(line 148 returns before `generate_text_with_gemini` is reached). -/
theorem generate_report_empty_404 (langArg : Option String)
    (key : Option String) (net : NetOutcome) :
    generate_report (.ok []) langArg key net
      = .err 404 ("error") ("No feedback data to generate a report.") := rfl

/-! ## Claim theorems: admin login -/

/-- Reduction of `/admin-login` on a resolved sheet to its scan result. -/
theorem admin_login_ok_eq (users : List AdminRec) (u p : String) :
    admin_login (.ok users) u p
      = (match users.find? (fun r => pyEqStr r.username u && (pyStr r.password == p)) with
          | some _ => ({ status := "success", message := "Login successful.", code := 200 } : JsonResp)
          | none => { status := "error", message := "Invalid credentials.", code := 401 }) := rfl

/-- Success of `/admin-login` on a resolved sheet is exactly the
existence of a record satisfying the loop condition of line 125. -/
theorem admin_login_ok_success_iff (users : List AdminRec) (u p : String) :
    admin_login (.ok users) u p = ⟨"success", "Login successful.", 200⟩
      ↔ ∃ r ∈ users, (pyEqStr r.username u && (pyStr r.password == p)) = true := by
  rw [admin_login_ok_eq]
  cases hf : users.find? (fun r => pyEqStr r.username u && (pyStr r.password == p)) with
  | some r =>
    have hp := List.find?_some hf
    exact iff_of_true rfl ⟨r, List.mem_of_find?_eq_some hf, hp⟩
  | none =>
    rw [List.find?_eq_none] at hf
    constructor
    · intro h
      exact absurd h (by decide)
    · rintro ⟨r, hr, hpr⟩
      exact absurd hpr (by simpa using hf r hr)

/-- C7: with string-valued stored records (the AdminCredential data
model), login succeeds iff some stored record matches both submitted
fields exactly; when none matches, the response is the 401 envelope with
"Invalid credentials."; and the outcome is invariant under permuting the
stored records. -/
theorem admin_login_exact_match_iff (recs : List (String × String)) (u p : String) :
    (admin_login (.ok (recs.map (fun x => AdminRec.mk (.pstr x.1) (.pstr x.2)))) u p
          = ⟨"success", "Login successful.", 200⟩
        ↔ ∃ x ∈ recs, x.1 = u ∧ x.2 = p)
      ∧ ((¬ ∃ x ∈ recs, x.1 = u ∧ x.2 = p) →
          admin_login (.ok (recs.map (fun x => AdminRec.mk (.pstr x.1) (.pstr x.2)))) u p
            = ⟨"error", "Invalid credentials.", 401⟩)
      ∧ (∀ recs2 : List (String × String), recs.Perm recs2 →
          (admin_login (.ok (recs.map (fun x => AdminRec.mk (.pstr x.1) (.pstr x.2)))) u p
              = ⟨"success", "Login successful.", 200⟩
            ↔ admin_login (.ok (recs2.map (fun x => AdminRec.mk (.pstr x.1) (.pstr x.2)))) u p
              = ⟨"success", "Login successful.", 200⟩)) := by
  have base : ∀ rs : List (String × String),
      (admin_login (.ok (rs.map (fun x => AdminRec.mk (.pstr x.1) (.pstr x.2)))) u p
          = ⟨"success", "Login successful.", 200⟩
        ↔ ∃ x ∈ rs, x.1 = u ∧ x.2 = p) := by
    intro rs
    rw [admin_login_ok_success_iff]
    constructor
    · rintro ⟨r, hr, hpr⟩
      rcases List.mem_map.mp hr with ⟨x, hx, rfl⟩
      refine ⟨x, hx, ?_⟩
      simpa [pyEqStr, pyStr] using hpr
    · rintro ⟨x, hx, hx1, hx2⟩
      refine ⟨AdminRec.mk (.pstr x.1) (.pstr x.2), List.mem_map.mpr ⟨x, hx, rfl⟩, ?_⟩
      simp [pyEqStr, pyStr, hx1, hx2]
  refine ⟨base recs, ?_, ?_⟩
  · intro hno
    rw [admin_login_ok_eq]
    cases hf : (recs.map (fun x => AdminRec.mk (.pstr x.1) (.pstr x.2))).find?
        (fun r => pyEqStr r.username u && (pyStr r.password == p)) with
    | some r =>
      exfalso
      apply hno
      apply (base recs).mp
      have hp := List.find?_some hf
      exact (admin_login_ok_success_iff _ u p).mpr
        ⟨r, List.mem_of_find?_eq_some hf, hp⟩
    | none => rfl
  · intro recs2 hperm
    rw [base recs, base recs2]
    constructor
    · rintro ⟨x, hx, hp⟩
      exact ⟨x, hperm.mem_iff.mp hx, hp⟩
    · rintro ⟨x, hx, hp⟩
      exact ⟨x, hperm.mem_iff.mpr hx, hp⟩

/-- Witness for C7: the spec scenario — submitted ("admin", "wrong")
against stored ("admin", "right") yields the 401 envelope. -/
theorem admin_login_exact_match_iff_witness :
    admin_login (.ok ([AdminRec.mk (.pstr ("admin")) (.pstr ("right"))])) ("admin") ("wrong")
      = ⟨"error", "Invalid credentials.", 401⟩ := by
  have h := (admin_login_exact_match_iff ([("admin", "right")]) ("admin") ("wrong")).2.1
  apply h
  rintro ⟨x, hx, h1, h2⟩
  simp at hx
  rw [hx] at h2
  exact absurd h2 (by decide)

/-- C10: in admin login the stored Password cell is coerced with `str()`
before comparison but the stored Username cell is compared raw: a stored
numeric password matches its decimal string, while a stored numeric
username never matches any submitted string. -/
theorem admin_login_password_coercion (u : String) (n : Int) (pw : PyVal) (u2 p2 : String) :
    admin_login (.ok ([AdminRec.mk (.pstr u) (.pint n)])) u (toString n)
        = ⟨"success", "Login successful.", 200⟩
      ∧ pyEqStr (.pint n) u2 = false
      ∧ admin_login (.ok ([AdminRec.mk (.pint n) pw])) u2 p2
        = ⟨"error", "Invalid credentials.", 401⟩ := by
  refine ⟨?_, rfl, ?_⟩
  · simp [admin_login, List.find?, pyEqStr, pyStr]
  · simp [admin_login, List.find?, pyEqStr]

/-! ## Claim theorems: feedback submission -/

/-- C1: when the persistence append succeeds and the AI call fails
(non-empty exception message), `/submit-feedback` responds with the
success envelope and appends exactly one row, whose aiCategory cell
(index 6) is "AI_Error", aiSentiment cell (index 7) is 0 and aiError
cell (index 8) is the non-empty exception message; moreover for this
request the response status is "success" whatever the annotation
outcome, so annotation failure alone never fails the request. -/
theorem submit_feedback_ai_failure_persists
    (data : List (String × PyVal)) (ft st : PyVal) (timestamp k m : String)
    (loads : String → Except String PyVal)
    (hft : dataGet data ("feedbackText") = some ft)
    (hst : dataGet data ("suggestionText") = some st)
    (hk : k ≠ "") (hm : m ≠ "") :
    (submit_feedback (.ok ()) data (some k) (.err m) loads timestamp (.ok ())).1
        = ⟨"success", "Feedback submitted.", 200⟩
      ∧ (∃ row, (submit_feedback (.ok ()) data (some k) (.err m) loads timestamp (.ok ())).2
            = some row
          ∧ row.length = 9
          ∧ row[6]? = some (.pstr ("AI_Error"))
          ∧ row[7]? = some (.pint 0)
          ∧ row[8]? = some (.pstr m)
          ∧ m ≠ "")
      ∧ (∀ (net2 : NetOutcome) (loads2 : String → Except String PyVal),
          (submit_feedback (.ok ()) data (some k) net2 loads2 timestamp (.ok ())).1.status
            = "success") := by
  have hai : analyze_with_gemini (some k) (.err m) loads
      ("Feedback: " ++ pyStr ft ++ ". Suggestion: " ++ pyStr st)
        = ⟨.pstr ("AI_Error"), .pint 0, m⟩ := by
    simp [analyze_with_gemini, keyMissing, hk]
  have hres : submit_feedback (.ok ()) data (some k) (.err m) loads timestamp (.ok ())
      = (⟨"success", "Feedback submitted.", 200⟩,
          some [.pstr timestamp, pyGetD data ("productName"), pyGetD data ("feedbackText"),
            pyGetD data ("suggestionText"), pyGetD data ("clientName"),
            pyGetD data ("clientEmail"), .pstr ("AI_Error"), .pint 0, .pstr m]) := by
    simp only [submit_feedback, hft, hst, hai]
  refine ⟨?_, ?_, ?_⟩
  · rw [hres]
  · refine ⟨_, by rw [hres], ?_, ?_, ?_, ?_, hm⟩ <;> rfl
  · intro net2 loads2
    simp only [submit_feedback, hft, hst]

/-- Witness for C1 at the spec scenario input. -/
theorem submit_feedback_ai_failure_persists_witness :
    (submit_feedback (.ok ())
        ([("productName", PyVal.pstr ("X")), ("feedbackText", PyVal.pstr ("Great")),
          ("suggestionText", PyVal.pstr ("None")), ("clientName", PyVal.pstr ("A")),
          ("clientEmail", PyVal.pstr ("a@x.com"))])
        (some "k") (.err ("connection refused")) (fun _ => .error ("x"))
        ("2024-01-01T00:00:00Z") (.ok ())).1
      = ⟨"success", "Feedback submitted.", 200⟩ :=
  (submit_feedback_ai_failure_persists
    ([("productName", PyVal.pstr ("X")), ("feedbackText", PyVal.pstr ("Great")),
      ("suggestionText", PyVal.pstr ("None")), ("clientName", PyVal.pstr ("A")),
      ("clientEmail", PyVal.pstr ("a@x.com"))])
    (PyVal.pstr ("Great")) (PyVal.pstr ("None")) ("2024-01-01T00:00:00Z") "k"
    ("connection refused") (fun _ => .error ("x")) rfl rfl (by decide) (by decide)).1

/-- C2 counterexample: a request body missing only `feedbackText` (the
other four fields present) is not accepted with defaults as the claim
states — line 109 subscripts `data['feedbackText']`, the `KeyError` is
caught by the handler, the response is a 500 error and no row is
appended. -/
theorem submit_feedback_missing_field_rejected_cex :
    (submit_feedback (.ok ())
        ([("productName", PyVal.pstr ("X")), ("suggestionText", PyVal.pstr ("None")),
          ("clientName", PyVal.pstr ("A")), ("clientEmail", PyVal.pstr ("a@x.com"))])
        (some "k") (.err ("down")) (fun _ => .error ("x"))
        ("2024-01-01T00:00:00Z") (.ok ())).1.code = 500
      ∧ (submit_feedback (.ok ())
        ([("productName", PyVal.pstr ("X")), ("suggestionText", PyVal.pstr ("None")),
          ("clientName", PyVal.pstr ("A")), ("clientEmail", PyVal.pstr ("a@x.com"))])
        (some "k") (.err ("down")) (fun _ => .error ("x"))
        ("2024-01-01T00:00:00Z") (.ok ())).2 = none :=
  ⟨rfl, rfl⟩

/-- C2 (amended): only `productName`, `clientName` and `clientEmail` are
optional — when they are absent the submission is still accepted and the
appended row carries `None` (empty) in the corresponding cells (indices
1, 4, 5); a body missing `feedbackText` or `suggestionText` is rejected
with a 500 error and nothing is appended. -/
theorem submit_feedback_field_presence_amended :
    (∀ (data : List (String × PyVal)) (ft st : PyVal) (key : Option String)
        (net : NetOutcome) (loads : String → Except String PyVal) (ts : String),
      dataGet data ("feedbackText") = some ft →
      dataGet data ("suggestionText") = some st →
        (submit_feedback (.ok ()) data key net loads ts (.ok ())).1
            = ⟨"success", "Feedback submitted.", 200⟩
          ∧ (∃ row, (submit_feedback (.ok ()) data key net loads ts (.ok ())).2 = some row
              ∧ (dataGet data ("productName") = none → row[1]? = some PyVal.pnone)
              ∧ (dataGet data ("clientName") = none → row[4]? = some PyVal.pnone)
              ∧ (dataGet data ("clientEmail") = none → row[5]? = some PyVal.pnone)))
  ∧ (∀ (data : List (String × PyVal)) (key : Option String) (net : NetOutcome)
        (loads : String → Except String PyVal) (ts : String),
      (dataGet data ("feedbackText") = none ∨ dataGet data ("suggestionText") = none) →
        (submit_feedback (.ok ()) data key net loads ts (.ok ())).1.code = 500
          ∧ (submit_feedback (.ok ()) data key net loads ts (.ok ())).2 = none) := by
  constructor
  · intro data ft st key net loads ts hft hst
    refine ⟨by simp only [submit_feedback, hft, hst], ?_⟩
    refine ⟨[.pstr ts, pyGetD data ("productName"), pyGetD data ("feedbackText"),
        pyGetD data ("suggestionText"), pyGetD data ("clientName"),
        pyGetD data ("clientEmail"),
        (analyze_with_gemini key net loads
          ("Feedback: " ++ pyStr ft ++ ". Suggestion: " ++ pyStr st)).category,
        (analyze_with_gemini key net loads
          ("Feedback: " ++ pyStr ft ++ ". Suggestion: " ++ pyStr st)).sentiment,
        .pstr (analyze_with_gemini key net loads
          ("Feedback: " ++ pyStr ft ++ ". Suggestion: " ++ pyStr st)).error],
      by simp only [submit_feedback, hft, hst], ?_, ?_, ?_⟩ <;>
      intro hnone <;> simp [pyGetD, hnone]
  · intro data key net loads ts h
    rcases h with h | h
    · constructor <;> simp only [submit_feedback, h] <;> rfl
    · cases hft : dataGet data ("feedbackText") with
      | none => constructor <;> simp only [submit_feedback, hft] <;> rfl
      | some ft => constructor <;> simp only [submit_feedback, hft, h] <;> rfl

/-- Witness for the amended C2: a body with only the two required text
fields is accepted with `None` defaults, and a body missing
`feedbackText` is rejected. -/
theorem submit_feedback_field_presence_amended_witness :
    ((submit_feedback (.ok ())
        ([("feedbackText", PyVal.pstr ("Great")), ("suggestionText", PyVal.pstr ("None"))])
        (some "k") (.err ("down")) (fun _ => .error ("x")) ("ts") (.ok ())).1
      = ⟨"success", "Feedback submitted.", 200⟩)
      ∧ ((submit_feedback (.ok ()) ([]) (some "k") (.err ("down"))
          (fun _ => .error ("x")) ("ts") (.ok ())).1.code = 500) :=
  ⟨(submit_feedback_field_presence_amended.1
      ([("feedbackText", PyVal.pstr ("Great")), ("suggestionText", PyVal.pstr ("None"))])
      (PyVal.pstr ("Great")) (PyVal.pstr ("None")) (some "k") (.err ("down"))
      (fun _ => .error ("x")) ("ts") rfl rfl).1,
    (submit_feedback_field_presence_amended.2 ([]) (some "k") (.err ("down"))
      (fun _ => .error ("x")) ("ts") (Or.inl rfl)).1⟩

/-- The paragraph loop (lines 156-158) keeps exactly the lines whose
`.strip()` is non-empty, in order. -/
theorem buildParas_eq_filter (ls : List String) :
    buildParas ls = ls.filter (fun l => !(pyStripStr l == "")) := by
  induction ls with
  | nil => rfl
  | cons l ls ih =>
    by_cases h : pyStripStr l = "" <;> simp [buildParas, List.filter_cons, h, ih]

/-- C9: for every synthesized narrative, the rendered document is the
single heading "Customer Feedback Report" followed by one paragraph per
line of the narrative that is non-blank after stripping, in line order,
with blank lines dropped; the filename carries the requested language. -/
theorem generate_report_renders_paragraphs
    (recs : List (List (String × PyVal))) (langArg : Option String)
    (k reply : String) (hrecs : recs ≠ []) (hk : k ≠ "") :
    generate_report (.ok recs) langArg (some k) (.ok reply)
        = .file ("Customer Feedback Report")
            ((reply.splitOn ("\n")).filter (fun l => !(pyStripStr l == "")))
            ("Pharma_Feedback_Report_" ++ langArg.getD ("english") ++ ".docx")
      ∧ (∀ p ∈ (reply.splitOn ("\n")).filter (fun l => !(pyStripStr l == "")),
          pyStripStr p ≠ "")
      ∧ List.Sublist ((reply.splitOn ("\n")).filter (fun l => !(pyStripStr l == "")))
          (reply.splitOn ("\n")) := by
  have hne : recs.isEmpty = false := by simp [List.isEmpty_iff, hrecs]
  refine ⟨?_, ?_, List.filter_sublist _⟩
  · simp only [generate_report, hne, Bool.false_eq_true, if_false,
      generate_text_with_gemini, keyMissing, buildParas_eq_filter]
    simp [hk]
  · intro p hp
    simpa using (List.mem_filter.mp hp).2

/-- Witness for C9 at a concrete narrative with a blank middle line. -/
theorem generate_report_renders_paragraphs_witness :
    generate_report (.ok ([[]])) none (some "k") (.ok ("A\n \nB"))
      = .file ("Customer Feedback Report")
          ((("A\n \nB" : String).splitOn ("\n")).filter (fun l => !(pyStripStr l == "")))
          ("Pharma_Feedback_Report_" ++ (none : Option String).getD ("english") ++ ".docx") :=
  (generate_report_renders_paragraphs ([[]]) none "k" ("A\n \nB")
    (List.cons_ne_nil _ _) (by decide)).1

/-! ## String-rewriting lemmas for the fence-stripping step (line 57) -/

/-- Unfolding `removeAll` on the empty string. -/
theorem removeAll_nil (pat : List Char) : removeAll pat [] = [] := by
  simp only [removeAll]

/-- Unfolding `removeAll` at a position where the pattern matches. -/
theorem removeAll_cons_pos {pat : List Char} (hne : pat ≠ []) {c : Char}
    {rest : List Char} (hp : pat <+: (c :: rest)) :
    removeAll pat (c :: rest) = removeAll pat (List.drop pat.length (c :: rest)) := by
  rw [removeAll]
  rw [dif_pos ⟨hne, hp⟩]

/-- Unfolding `removeAll` at a position where the pattern does not match. -/
theorem removeAll_cons_neg {pat : List Char} {c : Char} {rest : List Char}
    (hp : ¬ pat <+: (c :: rest)) :
    removeAll pat (c :: rest) = c :: removeAll pat rest := by
  rw [removeAll]
  rw [dif_neg (fun hc => hp hc.2)]

/-- A nonempty pattern has positive length. -/
theorem pat_length_pos {pat : List Char} (hne : pat ≠ []) : 1 ≤ pat.length := by
  cases pat with
  | nil => exact absurd rfl hne
  | cons a l => simp

/-- A leading occurrence of the pattern is removed whole. -/
theorem removeAll_append_pat {pat : List Char} (hne : pat ≠ []) (s : List Char) :
    removeAll pat (pat ++ s) = removeAll pat s := by
  cases hpat : pat with
  | nil => exact absurd hpat hne
  | cons p ps =>
    rw [← hpat]
    have hcons : pat ++ s = p :: (ps ++ s) := by rw [hpat]; rfl
    rw [hcons]
    rw [removeAll_cons_pos hne (by rw [← hcons]; exact List.prefix_append _ _)]
    rw [← hcons, List.drop_left]

/-- A prefix occurrence is an occurrence. -/
theorem occurs_of_prefix_occ {pat s : List Char} (h : pat <+: s) : Occurs pat s := by
  obtain ⟨y, hy⟩ := h
  exact ⟨[], y, by simp [hy.symm]⟩

/-- Occurrences are stable under prepending a character. -/
theorem occurs_cons_of {pat w : List Char} (c : Char) (h : Occurs pat w) :
    Occurs pat (c :: w) := by
  obtain ⟨x, y, hxy⟩ := h
  exact ⟨c :: x, y, by simp [hxy]⟩

/-- An occurrence in `c :: w` is a leading match or an occurrence in `w`. -/
theorem occurs_cons_elim {pat : List Char} {c : Char} {w : List Char}
    (h : Occurs pat (c :: w)) : pat <+: (c :: w) ∨ Occurs pat w := by
  obtain ⟨x, y, hxy⟩ := h
  cases x with
  | nil => exact Or.inl ⟨y, by simpa using hxy.symm⟩
  | cons a x2 =>
    simp only [List.cons_append, List.cons.injEq] at hxy
    exact Or.inr ⟨x2, y, hxy.2⟩

/-- An occurrence forces the string to be at least as long as the pattern. -/
theorem occurs_length_le {pat s : List Char} (h : Occurs pat s) :
    pat.length ≤ s.length := by
  obtain ⟨x, y, hxy⟩ := h
  subst hxy
  simp
  omega

/-- `replace(pat, '')` is the identity on strings without an occurrence. -/
theorem removeAll_eq_self {pat : List Char} :
    ∀ s : List Char, ¬ Occurs pat s → removeAll pat s = s := by
  intro s
  induction s with
  | nil => intro _; exact removeAll_nil pat
  | cons c rest ih =>
    intro hno
    have hp : ¬ pat <+: (c :: rest) := fun hp => hno (occurs_of_prefix_occ hp)
    rw [removeAll_cons_neg hp, ih (fun ho => hno (occurs_cons_of c ho))]

/-- Distribution of `replace(pat, '')` over an append, provided no
occurrence of the pattern straddles the junction: whenever the pattern
matches at a position whose remainder in `a` is nonempty, it must match
inside `a` alone. -/
theorem removeAll_append {pat : List Char} (hne : pat ≠ []) :
    ∀ (n : Nat) (a b : List Char), a.length ≤ n →
      (∀ a2, a2 <:+ a → a2 ≠ [] → pat <+: (a2 ++ b) → pat <+: a2) →
      removeAll pat (a ++ b) = removeAll pat a ++ removeAll pat b := by
  intro n
  induction n with
  | zero =>
    intro a b ha _
    have ha0 : a = [] := List.length_eq_zero.mp (Nat.le_zero.mp ha)
    subst ha0
    simp [removeAll_nil]
  | succ n ih =>
    intro a b ha h
    cases a with
    | nil => simp [removeAll_nil]
    | cons c a2 =>
      by_cases hp : pat <+: (c :: a2)
      · have hp2 : pat <+: (c :: a2) ++ b := hp.trans (List.prefix_append _ _)
        have hlen : pat.length ≤ (c :: a2).length := hp.length_le
        have hstep : removeAll pat ((c :: a2) ++ b)
            = removeAll pat (List.drop pat.length ((c :: a2) ++ b)) := by
          rw [List.cons_append] at hp2 ⊢
          exact removeAll_cons_pos hne hp2
        rw [hstep, List.drop_append_of_le_length hlen, removeAll_cons_pos hne hp]
        have hPL : 1 ≤ pat.length := pat_length_pos hne
        apply ih
        · simp only [List.length_drop, List.length_cons]
          simp only [List.length_cons] at ha
          omega
        · intro a3 hs hne3 hp3
          exact h a3 (hs.trans (List.drop_suffix _ _)) hne3 hp3
      · have hp2 : ¬ pat <+: (c :: (a2 ++ b)) := by
          intro hcon
          apply hp
          apply h (c :: a2) (List.suffix_refl _) (List.cons_ne_nil _ _)
          rw [List.cons_append]
          exact hcon
        rw [List.cons_append, removeAll_cons_neg hp2, removeAll_cons_neg hp]
        rw [ih a2 b (by simp only [List.length_cons] at ha; omega)
          (fun a3 hs hne3 hp3 => h a3 (hs.trans (List.suffix_cons c a2)) hne3 hp3)]
        rfl

/-- A nonempty suffix determines the last element. -/
theorem getLast?_of_suffix {l1 l2 : List Char} (h : l1 <:+ l2) (hne : l1 ≠ []) :
    l2.getLast? = l1.getLast? := by
  obtain ⟨pre, hp⟩ := h
  subst hp
  rw [List.getLast?_append]
  cases hl : l1.getLast? with
  | none => exact absurd (List.getLast?_eq_none_iff.mp hl) hne
  | some x => rfl

/-- `replace(pat, '')` keeps the last character when it differs from the
pattern's last character (an occurrence containing the final position
would have to end exactly there). -/
theorem removeAll_getLast? {pat : List Char} (hne : pat ≠ []) :
    ∀ (n : Nat) (s : List Char) (c : Char), s.length ≤ n → s.getLast? = some c →
      pat.getLast? ≠ some c → (removeAll pat s).getLast? = some c := by
  intro n
  induction n with
  | zero =>
    intro s c hs hlast _
    have hs0 : s = [] := List.length_eq_zero.mp (Nat.le_zero.mp hs)
    subst hs0
    simp at hlast
  | succ n ih =>
    intro s c hs hlast hpat
    cases s with
    | nil => simp at hlast
    | cons x rest =>
      by_cases hp : pat <+: (x :: rest)
      · rw [removeAll_cons_pos hne hp]
        cases hd : List.drop pat.length (x :: rest) with
        | nil =>
          exfalso
          have hdl : (x :: rest).length ≤ pat.length := List.drop_eq_nil_iff.mp hd
          have hpe : pat = x :: rest := by
            have := List.prefix_iff_eq_take.mp hp
            rw [List.take_of_length_le hdl] at this
            exact this
          rw [hpe] at hpat
          exact hpat hlast
        | cons d ds =>
          rw [← hd]
          apply ih
          · have hPL : 1 ≤ pat.length := pat_length_pos hne
            simp only [List.length_drop, List.length_cons]
            simp only [List.length_cons] at hs
            omega
          · rw [← getLast?_of_suffix (List.drop_suffix pat.length (x :: rest))
              (by rw [hd]; exact List.cons_ne_nil _ _)]
            exact hlast
          · exact hpat
      · rw [removeAll_cons_neg hp]
        cases rest with
        | nil =>
          rw [removeAll_nil]
          simpa using hlast
        | cons y t =>
          have hrest : (y :: t).getLast? = some c := by
            rw [List.getLast?_cons_cons] at hlast
            exact hlast
          have hr := ih (y :: t) c (by simp only [List.length_cons] at hs ⊢; omega) hrest hpat
          have hne2 : removeAll pat (y :: t) ≠ [] := by
            intro h0
            rw [h0] at hr
            simp at hr
          obtain ⟨z, w, hzw⟩ := List.exists_cons_of_ne_nil hne2
          rw [hzw] at hr
          rw [hzw, List.getLast?_cons_cons]
          exact hr

/-- Unfolding `leadTicks` on a cons. -/
theorem leadTicks_cons (c : Char) (w : List Char) :
    leadTicks (c :: w) = if c = bt then leadTicks w + 1 else 0 := rfl

/-- Two leading backticks are the same as a leading tick run of length
at least two. -/
theorem lead2_iff (r : List Char) : [bt, bt] <+: r ↔ 2 ≤ leadTicks r := by
  cases r with
  | nil =>
    constructor
    · intro h
      have := h.length_le
      simp at this
    · intro h
      simp [leadTicks] at h
  | cons x w =>
    cases w with
    | nil =>
      constructor
      · intro h
        have := h.length_le
        simp at this
      · intro h
        rw [leadTicks_cons] at h
        by_cases hx : x = bt <;> simp [hx, leadTicks] at h
    | cons y t =>
      rw [List.cons_prefix_cons, List.cons_prefix_cons]
      rw [leadTicks_cons, leadTicks_cons]
      constructor
      · rintro ⟨h1, h2, _⟩
        simp [h1.symm, h2.symm]
      · intro h
        by_cases hx : x = bt
        · by_cases hy : y = bt
          · exact ⟨hx.symm, hy.symm, List.nil_prefix⟩
          · simp [hx, hy] at h
        · simp [hx] at h

/-- The fence pattern matches at a cons exactly when the head is a
backtick and two more follow. -/
theorem fence_cons_prefix_iff (c : Char) (w : List Char) :
    fencePat <+: (c :: w) ↔ c = bt ∧ [bt, bt] <+: w := by
  show (bt :: [bt, bt]) <+: (c :: w) ↔ _
  rw [List.cons_prefix_cons]
  exact and_congr_left (fun _ => eq_comm)

/-- Invariant of line 57's second replace: the output of
`replace('```', '')` contains no occurrence of three consecutive
backticks, and its leading tick run is no longer than the input's. -/
theorem removeAll_fence_no_occurs :
    ∀ (n : Nat) (s : List Char), s.length ≤ n →
      ¬ Occurs fencePat (removeAll fencePat s)
        ∧ leadTicks (removeAll fencePat s) ≤ leadTicks s := by
  have hfne : fencePat ≠ [] := by decide
  intro n
  induction n with
  | zero =>
    intro s hs
    have hs0 : s = [] := List.length_eq_zero.mp (Nat.le_zero.mp hs)
    subst hs0
    rw [removeAll_nil]
    exact ⟨fun h => by have := occurs_length_le h; simp [fencePat] at this, Nat.le_refl _⟩
  | succ n ih =>
    intro s hs
    cases s with
    | nil =>
      rw [removeAll_nil]
      exact ⟨fun h => by have := occurs_length_le h; simp [fencePat] at this, Nat.le_refl _⟩
    | cons c rest =>
      by_cases hp : fencePat <+: (c :: rest)
      · rw [removeAll_cons_pos hfne hp]
        obtain ⟨s2, hs2⟩ := hp
        have hdrop : List.drop fencePat.length (c :: rest) = s2 := by
          rw [← hs2, List.drop_left]
        rw [hdrop]
        have hlen2 : s2.length ≤ n := by
          have hlc := congrArg List.length hs2
          simp only [List.length_append, List.length_cons] at hlc
          simp only [List.length_cons] at hs
          simp only [fencePat, List.length_cons, List.length_nil] at hlc
          omega
        obtain ⟨h1, h2⟩ := ih s2 hlen2
        refine ⟨h1, ?_⟩
        have hlead : leadTicks (c :: rest) = leadTicks s2 + 3 := by
          rw [← hs2]
          show leadTicks (bt :: bt :: bt :: s2) = leadTicks s2 + 3
          simp [leadTicks_cons]
        omega
      · rw [removeAll_cons_neg hp]
        obtain ⟨h1, h2⟩ := ih rest (by simp only [List.length_cons] at hs; omega)
        constructor
        · intro hocc
          rcases occurs_cons_elim hocc with hpre | ho2
          · rw [fence_cons_prefix_iff] at hpre
            obtain ⟨hc, hbb⟩ := hpre
            have hge : 2 ≤ leadTicks (removeAll fencePat rest) := (lead2_iff _).mp hbb
            have hnb : ¬ [bt, bt] <+: rest := by
              intro hbb2
              exact hp ((fence_cons_prefix_iff c rest).mpr ⟨hc, hbb2⟩)
            have hle1 : leadTicks rest ≤ 1 := by
              by_contra hgt
              push_neg at hgt
              exact hnb ((lead2_iff rest).mpr (by omega))
            omega
          · exact h1 ho2
        · rw [leadTicks_cons, leadTicks_cons]
          by_cases hc : c = bt
          · subst hc
            rw [if_pos rfl, if_pos rfl]
            omega
          · rw [if_neg hc, if_neg hc]

/-- `dropWhile` is idempotent. -/
theorem dropWhile_dropWhile (p : Char → Bool) (l : List Char) :
    List.dropWhile p (List.dropWhile p l) = List.dropWhile p l := by
  induction l with
  | nil => rfl
  | cons c r ih =>
    by_cases h : p c
    · rw [List.dropWhile_cons_of_pos h]
      exact ih
    · rw [List.dropWhile_cons_of_neg h, List.dropWhile_cons_of_neg h]

/-- The head of a `dropWhile` result fails the predicate. -/
theorem dropWhile_head_false (p : Char → Bool) (l : List Char) :
    List.dropWhile p l = [] ∨
      ∃ x m, List.dropWhile p l = x :: m ∧ p x = false := by
  induction l with
  | nil => exact Or.inl rfl
  | cons c r ih =>
    by_cases h : p c
    · rw [List.dropWhile_cons_of_pos h]
      exact ih
    · rw [List.dropWhile_cons_of_neg h]
      exact Or.inr ⟨c, r, rfl, by simpa using h⟩

/-- `dropWhile` is the identity when the head fails the predicate. -/
theorem dropWhile_cons_false {p : Char → Bool} {x : Char} {l : List Char}
    (h : p x = false) : List.dropWhile p (x :: l) = x :: l :=
  List.dropWhile_cons_of_neg (by simp [h])

/-- `stripEnd` yields a prefix of its input. -/
theorem stripEnd_prefix (s : List Char) : stripEnd s <+: s := by
  have h1 : List.dropWhile isPyWS s.reverse <:+ s.reverse :=
    List.dropWhile_suffix isPyWS
  rw [← List.reverse_reverse (List.dropWhile isPyWS s.reverse)] at h1
  exact List.reverse_suffix.mp h1

/-- `stripEnd` is idempotent. -/
theorem stripEnd_stripEnd (s : List Char) : stripEnd (stripEnd s) = stripEnd s := by
  unfold stripEnd
  rw [List.reverse_reverse, dropWhile_dropWhile]

/-- `str.strip()` yields a contiguous substring of its input. -/
theorem pyStrip_infix (s : List Char) :
    ∃ pre suf, pre ++ pyStrip s ++ suf = s := by
  obtain ⟨pre1, hp1⟩ := List.dropWhile_suffix isPyWS (l := s)
  obtain ⟨suf, hs⟩ := stripEnd_prefix (s.dropWhile isPyWS)
  refine ⟨pre1, suf, ?_⟩
  rw [List.append_assoc]
  show pre1 ++ (pyStrip s ++ suf) = s
  unfold pyStrip
  rw [hs, hp1]

/-- `str.strip()` is idempotent. -/
theorem pyStrip_pyStrip (s : List Char) : pyStrip (pyStrip s) = pyStrip s := by
  unfold pyStrip
  suffices h : (stripEnd (s.dropWhile isPyWS)).dropWhile isPyWS
      = stripEnd (s.dropWhile isPyWS) by
    rw [h, stripEnd_stripEnd]
  cases hsd : stripEnd (s.dropWhile isPyWS) with
  | nil => rfl
  | cons x m =>
    have hpre : stripEnd (s.dropWhile isPyWS) <+: s.dropWhile isPyWS :=
      stripEnd_prefix _
    rw [hsd] at hpre
    obtain ⟨t2, ht2⟩ := hpre
    rcases dropWhile_head_false isPyWS s with h0 | ⟨y, m2, hy, hpy⟩
    · rw [h0] at ht2
      simp at ht2
    · rw [hy] at ht2
      have hx : x = y := by
        have := congrArg List.head? ht2
        simpa using this
      rw [hx] at hsd ⊢
      exact dropWhile_cons_false hpy

/-- Occurrences inside a contiguous substring are occurrences. -/
theorem occurs_of_infix {pat m : List Char} (h : Occurs pat m)
    (pre suf : List Char) : Occurs pat (pre ++ m ++ suf) := by
  obtain ⟨x, y, hxy⟩ := h
  exact ⟨pre ++ x, y ++ suf, by simp [hxy]⟩

/-- An occurrence of the json fence contains an occurrence of the plain
fence. -/
theorem occurs_fence_of_fenceJson {s : List Char} (h : Occurs fenceJsonPat s) :
    Occurs fencePat s := by
  obtain ⟨x, y, hxy⟩ := h
  refine ⟨x, ['j', 's', 'o', 'n'] ++ y, ?_⟩
  rw [hxy]
  show x ++ fenceJsonPat ++ y = x ++ fencePat ++ (['j', 's', 'o', 'n'] ++ y)
  simp [fenceJsonPat, fencePat]

/-- Line 57's cleaning step is idempotent on every input string. -/
theorem clean_clean (s : List Char) : clean (clean s) = clean s := by
  unfold clean
  obtain ⟨hno, _⟩ := removeAll_fence_no_occurs
    (removeAll fenceJsonPat s).length (removeAll fenceJsonPat s) (Nat.le_refl _)
  have hnostrip : ¬ Occurs fencePat
      (pyStrip (removeAll fencePat (removeAll fenceJsonPat s))) := by
    intro ho
    obtain ⟨pre, suf, hps⟩ := pyStrip_infix
      (removeAll fencePat (removeAll fenceJsonPat s))
    exact hno (by rw [← hps]; exact occurs_of_infix ho pre suf)
  have h1 : removeAll fenceJsonPat
      (pyStrip (removeAll fencePat (removeAll fenceJsonPat s)))
        = pyStrip (removeAll fencePat (removeAll fenceJsonPat s)) :=
    removeAll_eq_self _ (fun ho => hnostrip (occurs_fence_of_fenceJson ho))
  have h2 : removeAll fencePat
      (pyStrip (removeAll fencePat (removeAll fenceJsonPat s)))
        = pyStrip (removeAll fencePat (removeAll fenceJsonPat s)) :=
    removeAll_eq_self _ hnostrip
  rw [h1, h2, pyStrip_pyStrip]

/-- A pattern matching at the front of `a ++ b` and fitting inside `a`
matches at the front of `a`. -/
theorem prefix_append_left {p a b : List Char} (hl : p.length ≤ a.length)
    (hp : p <+: (a ++ b)) : p <+: a := by
  have ht := List.prefix_iff_eq_take.mp hp
  rw [List.take_append_of_le_length hl] at ht
  rw [ht]
  exact ⟨a.drop p.length, List.take_append_drop _ _⟩

/-- No occurrence of the json fence can straddle the junction with a
trailing plain fence: the 7th pattern character is the letter n, which
never lands on a backtick of the suffix. -/
theorem fenceJson_no_straddle (a2 : List Char) (h2 : a2 ≠ [])
    (hp : fenceJsonPat <+: (a2 ++ fencePat)) : fenceJsonPat <+: a2 := by
  by_cases hl : fenceJsonPat.length ≤ a2.length
  · exact prefix_append_left hl hp
  · exfalso
    have hlen := hp.length_le
    simp only [fenceJsonPat, fencePat, List.length_append, List.length_cons,
      List.length_nil] at hlen hl
    obtain ⟨r, hr⟩ := hp
    have h6 : (fenceJsonPat ++ r)[6]? = some 'n' := by
      rw [List.getElem?_append_left (by simp [fenceJsonPat])]
      decide
    have h6b : (a2 ++ fencePat)[6]? = some bt := by
      rw [List.getElem?_append_right (by omega)]
      have hj : 6 - a2.length < 3 := by omega
      have hall : ∀ j, j < 3 → fencePat[j]? = some bt := by
        intro j hjlt
        interval_cases j <;> rfl
      exact hall _ hj
    rw [hr, h6b] at h6
    simp at h6
    exact (by decide : ¬ (bt = 'n')) h6

/-- No occurrence of the plain fence can straddle the junction between a
string whose last character is not a backtick and a trailing plain
fence. -/
theorem fence_no_straddle {u : List Char} {lc : Char}
    (hlast : u.getLast? = some lc) (hlc : lc ≠ bt) :
    ∀ a2, a2 <:+ u → a2 ≠ [] → fencePat <+: (a2 ++ fencePat) → fencePat <+: a2 := by
  intro a2 hs hne hp
  by_cases hl : fencePat.length ≤ a2.length
  · exact prefix_append_left hl hp
  · exfalso
    have hlast2 : a2.getLast? = some lc := by
      rw [← getLast?_of_suffix hs hne]
      exact hlast
    simp only [fencePat, List.length_cons, List.length_nil] at hl
    obtain ⟨r, hr⟩ := hp
    cases a2 with
    | nil => exact hne rfl
    | cons x m =>
      cases m with
      | nil =>
        have hx : bt = x := by
          have := congrArg List.head? hr
          simpa [fencePat] using this
        simp at hlast2
        exact hlc (by rw [← hlast2, ← hx])
      | cons y m2 =>
        cases m2 with
        | nil =>
          have hxy : bt = x ∧ bt = y := by
            simp only [fencePat, List.cons_append, List.nil_append,
              List.cons.injEq] at hr
            exact ⟨hr.1, hr.2.1⟩
          have hy : ([x, y] : List Char).getLast? = some y := rfl
          rw [hy] at hlast2
          simp at hlast2
          exact hlc (by rw [← hlast2, ← hxy.2])
        | cons z m3 =>
          simp at hl

/-- The fence-wrapped reply cleans to the same string as the bare reply,
for every reply whose last character is not a backtick and not the
letter n (in particular every JSON object text, which ends with a
closing brace or whitespace). -/
theorem clean_fenceWrap {t : List Char} {lc : Char} (hlast : t.getLast? = some lc)
    (hlc1 : lc ≠ bt) (hlc2 : lc ≠ 'n') : clean (fenceWrap t) = clean t := by
  have hJne : fenceJsonPat ≠ [] := by decide
  have hfne : fencePat ≠ [] := by decide
  unfold clean fenceWrap
  rw [List.append_assoc, removeAll_append_pat hJne]
  rw [removeAll_append hJne t.length t fencePat (Nat.le_refl _)
    (fun a2 _ h2 hp => fenceJson_no_straddle a2 h2 hp)]
  rw [removeAll_eq_self fencePat (fun ho => by
    have := occurs_length_le ho
    simp [fenceJsonPat, fencePat] at this)]
  have hJlast : fenceJsonPat.getLast? = some 'n' := by decide
  have hu : (removeAll fenceJsonPat t).getLast? = some lc :=
    removeAll_getLast? hJne t.length t lc (Nat.le_refl _) hlast (by
      rw [hJlast]
      intro hcon
      exact hlc2 (by injection hcon with h; exact h.symm))
  rw [removeAll_append hfne (removeAll fenceJsonPat t).length _ fencePat
    (Nat.le_refl _) (fence_no_straddle hu hlc1)]
  have hrf : removeAll fencePat fencePat = [] := by
    have h0 := removeAll_append_pat hfne []
    rw [List.append_nil] at h0
    rw [h0, removeAll_nil]
  rw [hrf, List.append_nil]

/-- C5: for every reply text ending in a closing brace or whitespace
(which covers every valid JSON object text, fenced or not), the cleaning
step of line 57 yields the same string whether the AI reply is the text
itself or the text surrounded by Markdown code fences — hence `classify`
parses the same category and sentiment either way — and applying the
cleaning step twice yields the same string as applying it once (on every
input whatsoever). -/
theorem classify_fence_stripping (t : List Char) (c : Char)
    (h1 : t.getLast? = some c) (h2 : c = '}' ∨ isPyWS c = true) :
    clean (fenceWrap t) = clean t
      ∧ (∀ s : List Char, clean (clean s) = clean s)
      ∧ (∀ (key : Option String) (loads : String → Except String PyVal) (txt : String),
          analyze_with_gemini key (.ok (String.mk (fenceWrap t))) loads txt
            = analyze_with_gemini key (.ok (String.mk t)) loads txt) := by
  have hcc : c ≠ bt ∧ c ≠ 'n' := by
    rcases h2 with h | h
    · subst h
      exact ⟨by decide, by decide⟩
    · simp only [isPyWS, Bool.or_eq_true, beq_iff_eq] at h
      rcases h with ((((h | h) | h) | h) | h) | h <;> subst h <;>
        exact ⟨by decide, by decide⟩
  have hfw := clean_fenceWrap h1 hcc.1 hcc.2
  refine ⟨hfw, clean_clean, ?_⟩
  intro key loads txt
  have hcs : cleanS (String.mk (fenceWrap t)) = cleanS (String.mk t) := by
    unfold cleanS
    rw [show (String.mk (fenceWrap t)).data = fenceWrap t from rfl,
      show (String.mk t).data = t from rfl, hfw]
  by_cases hkm : keyMissing key = true
  · simp only [analyze_with_gemini, if_pos hkm]
  · simp only [analyze_with_gemini, if_neg hkm, hcs]

/-- Witness for C5 at the smallest JSON-object-shaped reply. -/
theorem classify_fence_stripping_witness :
    ((['{', '}'] : List Char).getLast? = some '}')
      ∧ clean (fenceWrap (['{', '}'])) = clean (['{', '}']) :=
  ⟨by decide, (classify_fence_stripping (['{', '}']) '}' (by decide) (Or.inl rfl)).1⟩
